import Mathlib

/-!
Verification of the vue-mcp-next core against its specification.

The development shallowly embeds:
* `ViteDevToolsBridge` (packages/plugin/src/lib/devtools-bridge.ts): the
  correlation bridge with its `pendingRequests` map, `clientReady` flag,
  `messageId` counter, and the handlers for responses, errors, timeouts and
  cleanup; request ids are minted as the string `req_<counter>_<timestamp>`.
* `createDevToolsBridge`: the build-tool factory in the same file.
* `VueMcpHttpServer` POST/GET/DELETE `/mcp` dispatch (http-server.ts):
  the session registry decision logic, including JS truthiness of the
  `mcp-session-id` header and of the registry lookup.
* `VueMcpServer.setupRuntimeTools` (packages/core/src/server.ts): the
  uniform success/error envelope every registered tool produces.
-/

/-! ## Decimal rendering of numbers, as JS template interpolation does -/

/-- The character for one decimal digit, as produced by JS number printing. -/
def decDigit (d : Nat) : Char := Char.ofNat (48 + d)

/-- Decimal digit characters of `n`, most significant first (the JS rendering
of `n` inside a template literal; `0` renders to the empty digit list, which
never occurs for the bridge's counter since it is pre-incremented). -/
def natChars (n : Nat) : List Char := ((Nat.digits 10 n).reverse).map decDigit

/-- The request id minted by `sendCommand`: the string
`req_<messageId>_<Date.now()>`. -/
def mkRequestId (mid now : Nat) : String :=
  ⟨'r' :: 'e' :: 'q' :: '_' :: (natChars mid ++ '_' :: natChars now)⟩

/-! ## The pending-request map (`Map<string, PendingEntry>`) -/

/-- One entry of `pendingRequests`: the resolver/rejecter pair is represented
by the logical call id (the counter value minted for the call), and the timer
handle by the duration passed to `setTimeout`. -/
structure PendingEntry where
  callId : Nat
  timeoutMs : Nat
deriving Repr, DecidableEq

/-- `Map.get` on the pending-request map. -/
def mapGet (k : String) : List (String × PendingEntry) → Option PendingEntry
  | [] => none
  | p :: rest => if p.1 = k then some p.2 else mapGet k rest

/-- `Map.delete` on the pending-request map. -/
def mapDelete (k : String) : List (String × PendingEntry) → List (String × PendingEntry)
  | [] => []
  | p :: rest => if p.1 = k then mapDelete k rest else p :: mapDelete k rest

/-- `Map.set` on the pending-request map. -/
def mapSet (k : String) (v : PendingEntry) (m : List (String × PendingEntry)) :
    List (String × PendingEntry) :=
  mapDelete k m ++ [(k, v)]

/-! ## Bridge state and operations -/

/-- The mutable state of a `ViteDevToolsBridge` instance: whether
`viteServer.ws` exists, the `clientReady` flag, the `messageId` counter, and
the `pendingRequests` map. -/
structure BridgeState where
  wsAvailable : Bool
  clientReady : Bool
  messageId : Nat
  pendingRequests : List (String × PendingEntry)
deriving Repr, DecidableEq

/-- The state right after the constructor runs. -/
def initBridge (ws : Bool) : BridgeState :=
  { wsAvailable := ws, clientReady := false, messageId := 0, pendingRequests := [] }

/-- How one pending call settles (which callback fires on its promise). -/
inductive Settlement where
  /-- `pending.resolve(result)` in `handleClientResponse`. -/
  | resolved (result : String)
  /-- `pending.reject(new Error(error))` in `handleClientError`. -/
  | rejectedError (error : String)
  /-- the `setTimeout` callback's `reject`. -/
  | rejectedTimeout
  /-- the `catch` around `viteServer.ws.send` rejecting. -/
  | rejectedSendFail
  /-- `pending.reject(new Error('ViteDevToolsBridge shutting down'))` in `cleanup`. -/
  | rejectedShutdown
deriving Repr, DecidableEq

/-- Handler for the inbound `vue-mcp:response` event: settle and remove the
matching entry, or log and drop when the request id is unknown. -/
def handleClientResponse (s : BridgeState) (requestId result : String) :
    BridgeState × List (Nat × Settlement) :=
  match mapGet requestId s.pendingRequests with
  | some pending =>
      ({ s with pendingRequests := mapDelete requestId s.pendingRequests },
       [(pending.callId, Settlement.resolved result)])
  | none => (s, [])

/-- Handler for the inbound `vue-mcp:error` event. -/
def handleClientError (s : BridgeState) (requestId error : String) :
    BridgeState × List (Nat × Settlement) :=
  match mapGet requestId s.pendingRequests with
  | some pending =>
      ({ s with pendingRequests := mapDelete requestId s.pendingRequests },
       [(pending.callId, Settlement.rejectedError error)])
  | none => (s, [])

/-- The `setTimeout` callback registered by `sendCommand`; it can only run
while its timer is armed, which coincides with the entry being present. -/
def fireTimeout (s : BridgeState) (requestId : String) :
    BridgeState × List (Nat × Settlement) :=
  match mapGet requestId s.pendingRequests with
  | some pending =>
      ({ s with pendingRequests := mapDelete requestId s.pendingRequests },
       [(pending.callId, Settlement.rejectedTimeout)])
  | none => (s, [])

/-- `cleanup()`: clear every timer, reject every pending call with the
shutting-down error, empty the map and drop readiness. -/
def cleanup (s : BridgeState) : BridgeState × List (Nat × Settlement) :=
  ({ s with pendingRequests := [], clientReady := false },
   s.pendingRequests.map (fun p => (p.2.callId, Settlement.rejectedShutdown)))

/-- What `sendCommand` itself returns to its caller. -/
inductive SendResult where
  /-- threw `Vite WebSocket server not available`. -/
  | thrownNoWs
  /-- threw `Vue MCP client not ready. ...`. -/
  | thrownNotReady
  /-- `viteServer.ws.send` threw: entry removed again, promise rejected. -/
  | sendFailed (callId : Nat)
  /-- command emitted, call left pending under `requestId`. -/
  | registered (callId : Nat) (requestId : String)
deriving Repr, DecidableEq

/-- `sendCommand(method, params)`: precondition checks, minting of
`req_${++messageId}_${Date.now()}`, a 10 000 ms timer, registration, emission
(`sendThrows` says whether `viteServer.ws.send` throws synchronously). -/
def sendCommand (s : BridgeState) (method : String) (now : Nat) (sendThrows : Bool) :
    BridgeState × List (Nat × Settlement) × SendResult :=
  if s.wsAvailable = false then (s, [], SendResult.thrownNoWs)
  else if s.clientReady = false then (s, [], SendResult.thrownNotReady)
  else
    let mid := s.messageId + 1
    let requestId := mkRequestId mid now
    let afterSet := mapSet requestId { callId := mid, timeoutMs := 10000 } s.pendingRequests
    if sendThrows then
      ({ s with messageId := mid, pendingRequests := mapDelete requestId afterSet },
       [(mid, Settlement.rejectedSendFail)], SendResult.sendFailed mid)
    else
      ({ s with messageId := mid, pendingRequests := afterSet },
       [], SendResult.registered mid requestId)

/-- One event hitting the bridge. -/
inductive BridgeStep where
  /-- the inbound `vue-mcp:client-ready` event (or the client-ready HTTP
  notification calling `setClientReady(true)`). -/
  | clientReadyEvt
  /-- an inbound `vue-mcp:response` event. -/
  | response (requestId result : String)
  /-- an inbound `vue-mcp:error` event. -/
  | errorEvt (requestId error : String)
  /-- the deadline timer for `requestId` fires. -/
  | timerFire (requestId : String)
  /-- a call to `sendCommand`. -/
  | send (method : String) (now : Nat) (sendThrows : Bool)
  /-- a call to `cleanup()`. -/
  | doCleanup
deriving Repr, DecidableEq

/-- Result of running a sequence of events: final state, the settlements
delivered to callers (callId paired with how it settled), and the call ids
that `sendCommand` registered along the way. -/
structure RunOut where
  state : BridgeState
  settled : List (Nat × Settlement)
  minted : List Nat
deriving Repr, DecidableEq

/-- Interpret one event. -/
def stepRun (s : BridgeState) : BridgeStep → RunOut
  | BridgeStep.clientReadyEvt => ⟨{ s with clientReady := true }, [], []⟩
  | BridgeStep.response rid res =>
      ⟨(handleClientResponse s rid res).1, (handleClientResponse s rid res).2, []⟩
  | BridgeStep.errorEvt rid err =>
      ⟨(handleClientError s rid err).1, (handleClientError s rid err).2, []⟩
  | BridgeStep.timerFire rid =>
      ⟨(fireTimeout s rid).1, (fireTimeout s rid).2, []⟩
  | BridgeStep.send m now th =>
      ⟨(sendCommand s m now th).1, (sendCommand s m now th).2.1,
        match (sendCommand s m now th).2.2 with
        | SendResult.sendFailed c => [c]
        | SendResult.registered c _ => [c]
        | _ => []⟩
  | BridgeStep.doCleanup => ⟨(cleanup s).1, (cleanup s).2, []⟩

/-- Interpret a sequence of events. -/
def runBridge (s : BridgeState) : List BridgeStep → RunOut
  | [] => ⟨s, [], []⟩
  | st :: rest =>
      let o := stepRun s st
      let r := runBridge o.state rest
      ⟨r.state, o.settled ++ r.settled, o.minted ++ r.minted⟩

/-- Number of settlements delivered for call id `cid`. -/
def settleCount : List (Nat × Settlement) → Nat → Nat
  | [], _ => 0
  | p :: rest, cid => (if p.1 = cid then 1 else 0) + settleCount rest cid

/-- Number of pending entries carrying call id `cid`. -/
def pendCount : List (String × PendingEntry) → Nat → Nat
  | [], _ => 0
  | p :: rest, cid => (if p.2.callId = cid then 1 else 0) + pendCount rest cid

/-- Number of times call id `cid` was registered. -/
def mintCount : List Nat → Nat → Nat
  | [], _ => 0
  | c :: rest, cid => (if c = cid then 1 else 0) + mintCount rest cid

/-! ## HTTP server: POST /mcp dispatch and GET/DELETE session handling -/

/-- JS truthiness of the `mcp-session-id` header value (`undefined` and the
empty string are falsy). -/
def jsTruthy : Option String → Bool
  | none => false
  | some s => !(s == "")

/-- The own property names of `Object.prototype`: the registry
`this.transports` is a plain object literal, so property access with any of
these keys walks the prototype chain and yields a truthy non-transport value
(a function, or `Object.prototype` itself for `__proto__`) even though no
session is stored under them. -/
def protoKeys : List String :=
  ["constructor", "hasOwnProperty", "isPrototypeOf", "propertyIsEnumerable",
   "toLocaleString", "toString", "valueOf", "__defineGetter__", "__defineSetter__",
   "__lookupGetter__", "__lookupSetter__", "__proto__"]

/-- What the JS property access `this.transports[sid]` yields. -/
inductive RegistryHit where
  /-- an own property: the stored `StreamableHTTPServerTransport`. -/
  | storedTransport
  /-- an inherited `Object.prototype` member: truthy, but not a transport. -/
  | inherited
  /-- `undefined` (falsy). -/
  | absent
deriving Repr, DecidableEq

/-- `this.transports[sid]` on the plain-object registry: own properties (the
stored session ids) shadow the prototype chain; otherwise `Object.prototype`
members are found; everything else is `undefined`. -/
def registryLookup (transports : List String) (sid : String) : RegistryHit :=
  if transports.contains sid then RegistryHit.storedTransport
  else if protoKeys.contains sid then RegistryHit.inherited
  else RegistryHit.absent

/-- Truthiness of `this.transports[sessionId]` (stored transports and
inherited prototype members are truthy objects; `undefined` is falsy). -/
def registryTruthy (transports : List String) (sessionId : Option String) : Bool :=
  match sessionId with
  | none => false
  | some s =>
      match registryLookup transports s with
      | RegistryHit.absent => false
      | _ => true

/-- Observable outcome of the POST `/mcp` handler. -/
inductive PostAction where
  /-- `sessionId && this.transports[sessionId]` with a stored transport:
  reuse the existing session. -/
  | reuseSession
  /-- the same guard satisfied by an inherited `Object.prototype` member:
  the non-transport is assigned, `transport.handleRequest` throws, and the
  catch answers HTTP 500. -/
  | reuseNonTransport
  /-- `!sessionId && isInitializeRequest(req.body)`: create a new session. -/
  | createInitSession
  /-- the final `else`: create a new session in development mode. -/
  | createDevSession
deriving Repr, DecidableEq

/-- Branch selection of the POST `/mcp` handler in `setupMcpEndpoints`. -/
def postMcpAction (transports : List String) (sessionId : Option String)
    (isInit : Bool) : PostAction :=
  if jsTruthy sessionId && registryTruthy transports sessionId then
    if registryLookup transports (sessionId.getD "") = RegistryHit.storedTransport
    then PostAction.reuseSession
    else PostAction.reuseNonTransport
  else if !jsTruthy sessionId && isInit then PostAction.createInitSession
  else PostAction.createDevSession

/-- Whether a branch constructs a new `StreamableHTTPServerTransport`. -/
def createsSession : PostAction → Bool
  | PostAction.reuseSession => false
  | PostAction.reuseNonTransport => false
  | PostAction.createInitSession => true
  | PostAction.createDevSession => true

/-- Observable outcome of `handleSessionRequest` (GET/DELETE `/mcp`). -/
inductive SessionAction where
  /-- HTTP 400 `Invalid or missing session ID`; no transport is touched. -/
  | invalidSession
  /-- the guard passes on an inherited `Object.prototype` member: the
  attempted dispatch on a non-transport throws and the catch answers
  HTTP 500. -/
  | internalError
  /-- `transport.handleRequest(req, res)` on the stored transport. -/
  | dispatchTo (sessionId : String)
deriving Repr, DecidableEq

/-- `handleSessionRequest`: `!sessionId || !this.transports[sessionId]`
answers 400; otherwise the looked-up value is dispatched to — which only
works when it is a stored transport. -/
def handleSessionRequest (transports : List String) (sessionId : Option String) :
    SessionAction :=
  if !jsTruthy sessionId || !registryTruthy transports sessionId then
    SessionAction.invalidSession
  else
    match registryLookup transports (sessionId.getD "") with
    | RegistryHit.storedTransport => SessionAction.dispatchTo (sessionId.getD "")
    | _ => SessionAction.internalError

/-- `transport.onclose`: `delete this.transports[transport.sessionId]`. -/
def removeSession (transports : List String) (sessionId : String) : List String :=
  transports.filter (fun s => !(s == sessionId))

/-! ## Tool dispatch envelope (`setupRuntimeTools`) -/

/-- The JSON body every tool handler stringifies into its text content. -/
structure ToolEnvelope where
  success : Bool
  data : Option String
  error : Option String
deriving Repr, DecidableEq

/-- The tool names registered by `setupRuntimeTools`. -/
def registeredTools : List String :=
  ["get-component-tree", "get-component-state", "edit-component-state",
   "highlight-component", "get-router-info", "get-pinia-state", "get-pinia-tree"]

/-- The `data` field each tool puts in its success envelope: the two
mutation tools substitute a fixed confirmation message for the raw result. -/
def toolSuccessData (tool : String) (raw : String) : String :=
  if tool = "edit-component-state" then "State updated successfully"
  else if tool = "highlight-component" then "Component highlighted"
  else raw

/-- One invocation of a registered tool handler: the devtools-layer call
either succeeds with a raw result or throws, and the surrounding
`try`/`catch` produces the envelope. -/
def invokeTool (tool : String) (devtoolsResult : Except String String) : ToolEnvelope :=
  match devtoolsResult with
  | Except.ok r => { success := true, data := some (toolSuccessData tool r), error := none }
  | Except.error e => { success := false, data := none, error := some e }

/-! ## Bridge factory -/

/-- The bridge kinds the factory can hand back. -/
inductive CreatedBridge where
  | vite
deriving Repr, DecidableEq

/-- `createDevToolsBridge(buildTool, serverContext)`; `hasServerContext` is
the truthiness of the `serverContext` argument. -/
def createDevToolsBridge (buildTool : String) (hasServerContext : Bool) :
    Except String CreatedBridge :=
  if buildTool = "vite" then
    if hasServerContext then Except.ok CreatedBridge.vite
    else Except.error "Vite server context is required for Vite DevTools bridge"
  else if buildTool = "webpack" then
    Except.error "Webpack DevTools bridge not implemented yet"
  else if buildTool = "farm" then
    Except.error "Farm DevTools bridge not implemented yet"
  else Except.error ("Unsupported build tool: " ++ buildTool)

/-! ## Freshness of minted request ids -/

lemma decDigit_inj {a b : Nat} (ha : a < 10) (hb : b < 10)
    (h : decDigit a = decDigit b) : a = b := by
  have key : ∀ d1 d2 : Fin 10, decDigit d1.val = decDigit d2.val → d1 = d2 := by decide
  have := key ⟨a, ha⟩ ⟨b, hb⟩ h
  exact congrArg Fin.val this

lemma decDigit_ne_uscore {d : Nat} (hd : d < 10) : decDigit d ≠ '_' := by
  have key : ∀ d : Fin 10, decDigit d.val ≠ '_' := by decide
  exact key ⟨d, hd⟩

lemma map_decDigit_inj : ∀ (l1 l2 : List Nat), (∀ x ∈ l1, x < 10) → (∀ x ∈ l2, x < 10) →
    l1.map decDigit = l2.map decDigit → l1 = l2 := by
  intro l1
  induction l1 with
  | nil => intro l2 _ _ h; cases l2 <;> simp_all
  | cons a t ih =>
      intro l2 h1 h2 h
      cases l2 with
      | nil => simp_all
      | cons b t2 =>
          simp only [List.map_cons, List.cons.injEq] at h
          have ha : a < 10 := h1 a (by simp)
          have hb : b < 10 := h2 b (by simp)
          have hab : a = b := decDigit_inj ha hb h.1
          have ht : t = t2 := ih t2 (fun x hx => h1 x (by simp [hx]))
            (fun x hx => h2 x (by simp [hx])) h.2
          rw [hab, ht]

lemma mem_natChars_lt {c : Char} {n : Nat} (h : c ∈ natChars n) :
    ∃ d, d < 10 ∧ c = decDigit d := by
  unfold natChars at h
  rcases List.mem_map.mp h with ⟨d, hd, rfl⟩
  exact ⟨d, Nat.digits_lt_base (by norm_num) (List.mem_reverse.mp hd), rfl⟩

lemma uscore_not_mem_natChars (n : Nat) : '_' ∉ natChars n := by
  intro h
  rcases mem_natChars_lt h with ⟨d, hd, hc⟩
  exact decDigit_ne_uscore hd hc.symm

lemma natChars_inj {a b : Nat} (h : natChars a = natChars b) : a = b := by
  unfold natChars at h
  have hda : ∀ x ∈ (Nat.digits 10 a).reverse, x < 10 := fun x hx =>
    Nat.digits_lt_base (by norm_num) (List.mem_reverse.mp hx)
  have hdb : ∀ x ∈ (Nat.digits 10 b).reverse, x < 10 := fun x hx =>
    Nat.digits_lt_base (by norm_num) (List.mem_reverse.mp hx)
  have hrev := map_decDigit_inj _ _ hda hdb h
  have hd : Nat.digits 10 a = Nat.digits 10 b := List.reverse_inj.mp hrev
  have := congrArg (Nat.ofDigits 10) hd
  rwa [Nat.ofDigits_digits, Nat.ofDigits_digits] at this

lemma append_uscore_inj : ∀ (l1 l2 r1 r2 : List Char), '_' ∉ l1 → '_' ∉ l2 →
    l1 ++ '_' :: r1 = l2 ++ '_' :: r2 → l1 = l2 ∧ r1 = r2 := by
  intro l1
  induction l1 with
  | nil =>
      intro l2 r1 r2 _ h2 h
      cases l2 with
      | nil => simpa using h
      | cons b t2 =>
          simp only [List.nil_append, List.cons_append, List.cons.injEq] at h
          exact absurd (List.mem_cons.mpr (Or.inl h.1)) h2
  | cons a t ih =>
      intro l2 r1 r2 h1 h2 h
      cases l2 with
      | nil =>
          simp only [List.cons_append, List.nil_append, List.cons.injEq] at h
          exact absurd (List.mem_cons.mpr (Or.inl h.1.symm)) h1
      | cons b t2 =>
          simp only [List.cons_append, List.cons.injEq] at h
          have := ih t2 r1 r2 (fun hm => h1 (by simp [hm])) (fun hm => h2 (by simp [hm])) h.2
          exact ⟨by rw [h.1, this.1], this.2⟩

/-- Distinct counter values always yield distinct request-id strings,
whatever the timestamps: the counter segment is delimited by underscores
that cannot occur inside the decimal digits. -/
lemma mkRequestId_inj_left {a x b y : Nat} (h : mkRequestId a x = mkRequestId b y) :
    a = b := by
  unfold mkRequestId at h
  have hdata := congrArg String.data h
  simp only [List.cons.injEq, true_and] at hdata
  have := append_uscore_inj (natChars a) (natChars b) (natChars x) (natChars y)
    (uscore_not_mem_natChars a) (uscore_not_mem_natChars b) hdata
  exact natChars_inj this.1

/-! ## Basic lemmas about the pending-request map -/

lemma mapGet_mapDelete_self (k : String) : ∀ m, mapGet k (mapDelete k m) = none := by
  intro m
  induction m with
  | nil => rfl
  | cons p rest ih =>
      by_cases hp : p.1 = k
      · simp [mapDelete, hp, ih]
      · simp [mapDelete, mapGet, hp, ih]

lemma mapGet_mapDelete_ne (k k' : String) (h : k' ≠ k) :
    ∀ m, mapGet k' (mapDelete k m) = mapGet k' m := by
  intro m
  induction m with
  | nil => rfl
  | cons p rest ih =>
      by_cases hp : p.1 = k
      · have hk : ¬ p.1 = k' := by rw [hp]; exact fun hh => h hh.symm
        simp only [mapDelete, if_pos hp, mapGet, if_neg hk]
        exact ih
      · simp only [mapDelete, if_neg hp, mapGet]
        by_cases hp' : p.1 = k' <;> simp [hp', ih]

lemma mapGet_mapSet_self (k : String) (v : PendingEntry) (m : List (String × PendingEntry)) :
    mapGet k (mapSet k v m) = some v := by
  unfold mapSet
  induction m with
  | nil => simp [mapDelete, mapGet]
  | cons p rest ih =>
      by_cases hp : p.1 = k
      · simpa [mapDelete, hp] using ih
      · simpa [mapDelete, mapGet, hp] using ih

lemma mapDelete_append (k : String) (m1 m2 : List (String × PendingEntry)) :
    mapDelete k (m1 ++ m2) = mapDelete k m1 ++ mapDelete k m2 := by
  induction m1 with
  | nil => rfl
  | cons p rest ih =>
      by_cases hp : p.1 = k <;> simp [mapDelete, hp, ih]

lemma mapDelete_mapDelete (k : String) : ∀ m, mapDelete k (mapDelete k m) = mapDelete k m := by
  intro m
  induction m with
  | nil => rfl
  | cons p rest ih =>
      by_cases hp : p.1 = k <;> simp [mapDelete, hp, ih]

lemma mapDelete_mapSet_self (k : String) (v : PendingEntry) (m : List (String × PendingEntry)) :
    mapDelete k (mapSet k v m) = mapDelete k m := by
  unfold mapSet
  rw [mapDelete_append, mapDelete_mapDelete]
  simp [mapDelete]

lemma mapDelete_of_forall_ne (k : String) :
    ∀ m, (∀ p ∈ m, p.1 ≠ k) → mapDelete k m = m := by
  intro m
  induction m with
  | nil => intro _; rfl
  | cons p rest ih =>
      intro h
      have hp : p.1 ≠ k := h p (by simp)
      simp only [mapDelete, if_neg hp]
      rw [ih (fun q hq => h q (by simp [hq]))]

lemma mapDelete_sublist (k : String) : ∀ m, List.Sublist (mapDelete k m) m := by
  intro m
  induction m with
  | nil => simp [mapDelete]
  | cons p rest ih =>
      by_cases hp : p.1 = k
      · simp only [mapDelete, if_pos hp]
        exact List.Sublist.cons p ih
      · simp only [mapDelete, if_neg hp]
        exact List.Sublist.cons₂ p ih

lemma mapGet_mem {k : String} : ∀ {m : List (String × PendingEntry)} {e : PendingEntry},
    mapGet k m = some e → (k, e) ∈ m := by
  intro m
  induction m with
  | nil => intro e h; simp [mapGet] at h
  | cons p rest ih =>
      intro e h
      by_cases hp : p.1 = k
      · simp only [mapGet, if_pos hp] at h
        cases h
        exact List.mem_cons.mpr (Or.inl (by cases p; simp_all))
      · simp only [mapGet, if_neg hp] at h
        exact List.mem_cons.mpr (Or.inr (ih h))

/-! ## Counting lemmas -/

lemma settleCount_append (l1 l2 : List (Nat × Settlement)) (cid : Nat) :
    settleCount (l1 ++ l2) cid = settleCount l1 cid + settleCount l2 cid := by
  induction l1 with
  | nil => simp [settleCount]
  | cons p rest ih => simp [settleCount, ih]; omega

lemma mintCount_append (l1 l2 : List Nat) (cid : Nat) :
    mintCount (l1 ++ l2) cid = mintCount l1 cid + mintCount l2 cid := by
  induction l1 with
  | nil => simp [mintCount]
  | cons c rest ih => simp [mintCount, ih]; omega

lemma pendCount_append (m1 m2 : List (String × PendingEntry)) (cid : Nat) :
    pendCount (m1 ++ m2) cid = pendCount m1 cid + pendCount m2 cid := by
  induction m1 with
  | nil => simp [pendCount]
  | cons p rest ih => simp [pendCount, ih]; omega

lemma pendCount_eq_zero_of_not_mem {m : List (String × PendingEntry)} {cid : Nat}
    (h : cid ∉ m.map (fun p => p.2.callId)) : pendCount m cid = 0 := by
  induction m with
  | nil => rfl
  | cons p rest ih =>
      simp only [List.map_cons, List.mem_cons] at h
      push_neg at h
      have h1 : ¬ p.2.callId = cid := fun hh => h.1 hh.symm
      simp [pendCount, h1, ih h.2]

lemma pendCount_le_one {m : List (String × PendingEntry)}
    (h : (m.map (fun p => p.2.callId)).Nodup) (cid : Nat) : pendCount m cid ≤ 1 := by
  induction m with
  | nil => simp [pendCount]
  | cons p rest ih =>
      simp only [List.map_cons, List.nodup_cons] at h
      by_cases hc : p.2.callId = cid
      · have : pendCount rest cid = 0 :=
          pendCount_eq_zero_of_not_mem (by rw [← hc]; exact h.1)
        simp [pendCount, hc, this]
      · simpa [pendCount, hc] using ih h.2

lemma mintCount_pos {l : List Nat} {cid : Nat} (h : cid ∈ l) : 1 ≤ mintCount l cid := by
  induction l with
  | nil => simp at h
  | cons c rest ih =>
      rcases List.mem_cons.mp h with h | h
      · simp [mintCount, h.symm]
      · have := ih h
        simp only [mintCount]
        omega

lemma mintCount_eq_zero_of_not_mem {l : List Nat} {cid : Nat} (h : cid ∉ l) :
    mintCount l cid = 0 := by
  induction l with
  | nil => rfl
  | cons c rest ih =>
      simp only [List.mem_cons, not_or] at h
      have h1 : ¬ c = cid := fun hh => h.1 hh.symm
      simp [mintCount, h1, ih h.2]

lemma mintCount_le_one {l : List Nat} (h : l.Nodup) (cid : Nat) : mintCount l cid ≤ 1 := by
  induction l with
  | nil => simp [mintCount]
  | cons c rest ih =>
      simp only [List.nodup_cons] at h
      by_cases hc : c = cid
      · have h0 : mintCount rest cid = 0 :=
          mintCount_eq_zero_of_not_mem (by rw [← hc]; exact h.1)
        simp [mintCount, hc, h0]
      · simpa [mintCount, hc] using ih h.2

lemma settleCount_shutdown (m : List (String × PendingEntry)) (cid : Nat) :
    settleCount (m.map (fun p => (p.2.callId, Settlement.rejectedShutdown))) cid
      = pendCount m cid := by
  induction m with
  | nil => rfl
  | cons p rest ih => simp [settleCount, pendCount, ih]

lemma pendCount_mapDelete {k : String} {e : PendingEntry} (cid : Nat) :
    ∀ {m : List (String × PendingEntry)}, (m.map Prod.fst).Nodup → mapGet k m = some e →
    pendCount m cid = pendCount (mapDelete k m) cid + (if e.callId = cid then 1 else 0) := by
  intro m
  induction m with
  | nil => intro _ h; simp [mapGet] at h
  | cons p rest ih =>
      intro hnd hg
      simp only [List.map_cons, List.nodup_cons] at hnd
      by_cases hp : p.1 = k
      · simp only [mapGet, if_pos hp] at hg
        cases hg
        have hkrest : ∀ q ∈ rest, q.1 ≠ k := by
          intro q hq hqk
          exact hnd.1 (List.mem_map.mpr ⟨q, hq, by rw [hqk, hp]⟩)
        rw [show mapDelete k (p :: rest) = rest by
          simp [mapDelete, hp, mapDelete_of_forall_ne k rest hkrest]]
        simp [pendCount]
        omega
      · simp only [mapGet, if_neg hp] at hg
        have := ih hnd.2 hg
        simp only [mapDelete, if_neg hp, pendCount, this]
        omega

/-! ## The bridge invariant -/

/-- Invariant of every reachable bridge state: the pending map has no
duplicate request ids, no duplicate call ids, and every entry's request id is
the string minted for its call id, whose counter value never exceeds the
current `messageId`. -/
def StateOK (s : BridgeState) : Prop :=
  (s.pendingRequests.map Prod.fst).Nodup ∧
  (s.pendingRequests.map (fun p => p.2.callId)).Nodup ∧
  ∀ p ∈ s.pendingRequests, p.2.callId ≤ s.messageId ∧ ∃ t, p.1 = mkRequestId p.2.callId t

lemma initBridge_ok (ws : Bool) : StateOK (initBridge ws) := by
  simp [StateOK, initBridge]

/-- A request id minted with a counter value above `messageId` cannot collide
with any key already in the map. -/
lemma fresh_key_not_used {s : BridgeState} (h : StateOK s) {c : Nat}
    (hc : s.messageId < c) (now : Nat) :
    ∀ p ∈ s.pendingRequests, p.1 ≠ mkRequestId c now := by
  intro p hp heq
  obtain ⟨hle, t, hrid⟩ := h.2.2 p hp
  rw [hrid] at heq
  have := mkRequestId_inj_left heq
  omega

lemma stateOK_mapDelete {s : BridgeState} (h : StateOK s) (k : String) :
    StateOK { s with pendingRequests := mapDelete k s.pendingRequests } := by
  have hsub := mapDelete_sublist k s.pendingRequests
  refine ⟨List.Nodup.sublist (List.Sublist.map Prod.fst hsub) h.1,
    List.Nodup.sublist (List.Sublist.map (fun p => p.2.callId) hsub) h.2.1, ?_⟩
  intro p hp
  exact h.2.2 p (hsub.subset hp)

/-- Settling one entry found under key `k` removes it and accounts for
exactly one settlement of its call id. -/
lemma settle_counts {s : BridgeState} (h : StateOK s) {k : String} {e : PendingEntry}
    (hg : mapGet k s.pendingRequests = some e) (cid : Nat) (sett : Settlement) :
    settleCount [(e.callId, sett)] cid + pendCount (mapDelete k s.pendingRequests) cid
      = pendCount s.pendingRequests cid := by
  have := pendCount_mapDelete cid h.1 hg
  simp only [settleCount]
  omega


/-- One event preserves the invariant, advances the counter monotonically,
mints only values in the window just above the old counter, and balances the
ledger: settlements delivered plus entries still pending equals entries
pending before plus registrations made. -/
lemma stepRun_ok (s : BridgeState) (st : BridgeStep) (h : StateOK s) :
    StateOK (stepRun s st).state ∧
    s.messageId ≤ (stepRun s st).state.messageId ∧
    (∀ c ∈ (stepRun s st).minted, s.messageId < c ∧ c ≤ (stepRun s st).state.messageId) ∧
    (stepRun s st).minted.Nodup ∧
    (∀ cid, settleCount (stepRun s st).settled cid
        + pendCount (stepRun s st).state.pendingRequests cid
      = pendCount s.pendingRequests cid + mintCount (stepRun s st).minted cid) := by
  cases st with
  | clientReadyEvt =>
      have hstep : stepRun s BridgeStep.clientReadyEvt
          = ⟨{ s with clientReady := true }, [], []⟩ := rfl
      rw [hstep]
      exact ⟨⟨h.1, h.2.1, h.2.2⟩, le_refl _, by simp, by simp,
        fun cid => by simp [settleCount, mintCount]⟩
  | response rid res =>
      cases hg : mapGet rid s.pendingRequests with
      | some e =>
          have hstep : stepRun s (BridgeStep.response rid res)
              = ⟨{ s with pendingRequests := mapDelete rid s.pendingRequests },
                 [(e.callId, Settlement.resolved res)], []⟩ := by
            simp [stepRun, handleClientResponse, hg]
          rw [hstep]
          refine ⟨stateOK_mapDelete h rid, le_refl _, by simp, by simp, ?_⟩
          intro cid
          simpa [mintCount] using settle_counts h hg cid (Settlement.resolved res)
      | none =>
          have hstep : stepRun s (BridgeStep.response rid res) = ⟨s, [], []⟩ := by
            simp [stepRun, handleClientResponse, hg]
          rw [hstep]
          exact ⟨h, le_refl _, by simp, by simp,
            fun cid => by simp [settleCount, mintCount]⟩
  | errorEvt rid err =>
      cases hg : mapGet rid s.pendingRequests with
      | some e =>
          have hstep : stepRun s (BridgeStep.errorEvt rid err)
              = ⟨{ s with pendingRequests := mapDelete rid s.pendingRequests },
                 [(e.callId, Settlement.rejectedError err)], []⟩ := by
            simp [stepRun, handleClientError, hg]
          rw [hstep]
          refine ⟨stateOK_mapDelete h rid, le_refl _, by simp, by simp, ?_⟩
          intro cid
          simpa [mintCount] using settle_counts h hg cid (Settlement.rejectedError err)
      | none =>
          have hstep : stepRun s (BridgeStep.errorEvt rid err) = ⟨s, [], []⟩ := by
            simp [stepRun, handleClientError, hg]
          rw [hstep]
          exact ⟨h, le_refl _, by simp, by simp,
            fun cid => by simp [settleCount, mintCount]⟩
  | timerFire rid =>
      cases hg : mapGet rid s.pendingRequests with
      | some e =>
          have hstep : stepRun s (BridgeStep.timerFire rid)
              = ⟨{ s with pendingRequests := mapDelete rid s.pendingRequests },
                 [(e.callId, Settlement.rejectedTimeout)], []⟩ := by
            simp [stepRun, fireTimeout, hg]
          rw [hstep]
          refine ⟨stateOK_mapDelete h rid, le_refl _, by simp, by simp, ?_⟩
          intro cid
          simpa [mintCount] using settle_counts h hg cid Settlement.rejectedTimeout
      | none =>
          have hstep : stepRun s (BridgeStep.timerFire rid) = ⟨s, [], []⟩ := by
            simp [stepRun, fireTimeout, hg]
          rw [hstep]
          exact ⟨h, le_refl _, by simp, by simp,
            fun cid => by simp [settleCount, mintCount]⟩
  | doCleanup =>
      have hstep : stepRun s BridgeStep.doCleanup
          = ⟨{ s with pendingRequests := [], clientReady := false },
             s.pendingRequests.map (fun p => (p.2.callId, Settlement.rejectedShutdown)),
             []⟩ := rfl
      rw [hstep]
      refine ⟨⟨by simp, by simp, by simp⟩, le_refl _, by simp, by simp, ?_⟩
      intro cid
      simp [settleCount_shutdown, pendCount, mintCount]
  | send m now th =>
      by_cases hws : s.wsAvailable = false
      · have hstep : stepRun s (BridgeStep.send m now th) = ⟨s, [], []⟩ := by
          simp [stepRun, sendCommand, hws]
        rw [hstep]
        exact ⟨h, le_refl _, by simp, by simp,
          fun cid => by simp [settleCount, mintCount]⟩
      · by_cases hcr : s.clientReady = false
        · have hstep : stepRun s (BridgeStep.send m now th) = ⟨s, [], []⟩ := by
            simp [stepRun, sendCommand, hws, hcr]
          rw [hstep]
          exact ⟨h, le_refl _, by simp, by simp,
            fun cid => by simp [settleCount, mintCount]⟩
        · have hfresh : ∀ p ∈ s.pendingRequests, p.1 ≠ mkRequestId (s.messageId + 1) now :=
            fresh_key_not_used h (Nat.lt_succ_self _) now
          have hdel : mapDelete (mkRequestId (s.messageId + 1) now) s.pendingRequests
              = s.pendingRequests := mapDelete_of_forall_ne _ _ hfresh
          cases th with
          | true =>
              have hpend : mapDelete (mkRequestId (s.messageId + 1) now)
                  (mapSet (mkRequestId (s.messageId + 1) now)
                    { callId := s.messageId + 1, timeoutMs := 10000 } s.pendingRequests)
                  = s.pendingRequests := by
                rw [mapDelete_mapSet_self, hdel]
              have hstep : stepRun s (BridgeStep.send m now true)
                  = ⟨{ s with messageId := s.messageId + 1, pendingRequests := s.pendingRequests },
                     [(s.messageId + 1, Settlement.rejectedSendFail)],
                     [s.messageId + 1]⟩ := by
                simp [stepRun, sendCommand, hws, hcr, hpend]
              rw [hstep]
              refine ⟨⟨h.1, h.2.1, ?_⟩, Nat.le_succ _, ?_, by simp, ?_⟩
              · intro p hp
                have := h.2.2 p hp
                exact ⟨Nat.le_succ_of_le this.1, this.2⟩
              · intro c hc
                simp only [List.mem_singleton] at hc
                subst hc
                exact ⟨Nat.lt_succ_self _, le_refl _⟩
              · intro cid
                by_cases hmc : s.messageId + 1 = cid <;>
                  simp [settleCount, mintCount, hmc] <;> omega
          | false =>
              have hset : mapSet (mkRequestId (s.messageId + 1) now)
                  { callId := s.messageId + 1, timeoutMs := 10000 } s.pendingRequests
                  = s.pendingRequests
                    ++ [(mkRequestId (s.messageId + 1) now,
                         { callId := s.messageId + 1, timeoutMs := 10000 })] := by
                unfold mapSet; rw [hdel]
              have hstep : stepRun s (BridgeStep.send m now false)
                  = ⟨{ s with messageId := s.messageId + 1, pendingRequests := s.pendingRequests ++ [(mkRequestId (s.messageId + 1) now, { callId := s.messageId + 1, timeoutMs := 10000 })] },
                     [], [s.messageId + 1]⟩ := by
                simp [stepRun, sendCommand, hws, hcr, hset]
              rw [hstep]
              refine ⟨⟨?_, ?_, ?_⟩, Nat.le_succ _, ?_, by simp, ?_⟩
              · simp only [List.map_append, List.map_cons, List.map_nil]
                rw [List.nodup_append]
                refine ⟨h.1, by simp, ?_⟩
                intro a ha hb
                simp only [List.mem_singleton] at hb
                rcases List.mem_map.mp ha with ⟨p, hp, hpa⟩
                exact hfresh p hp (hpa ▸ hb)
              · simp only [List.map_append, List.map_cons, List.map_nil]
                rw [List.nodup_append]
                refine ⟨h.2.1, by simp, ?_⟩
                intro a ha hb
                simp only [List.mem_singleton] at hb
                rcases List.mem_map.mp ha with ⟨p, hp, hpa⟩
                have := (h.2.2 p hp).1
                omega
              · intro p hp
                rcases List.mem_append.mp hp with hp | hp
                · have := h.2.2 p hp
                  exact ⟨Nat.le_succ_of_le this.1, this.2⟩
                · simp only [List.mem_singleton] at hp
                  subst hp
                  exact ⟨le_refl _, ⟨now, rfl⟩⟩
              · intro c hc
                simp only [List.mem_singleton] at hc
                subst hc
                exact ⟨Nat.lt_succ_self _, le_refl _⟩
              · intro cid
                by_cases hmc : s.messageId + 1 = cid <;>
                  simp [settleCount, pendCount_append, pendCount, mintCount, hmc] <;> omega

lemma runBridge_append (l1 l2 : List BridgeStep) : ∀ s : BridgeState,
    runBridge s (l1 ++ l2)
      = ⟨(runBridge (runBridge s l1).state l2).state,
         (runBridge s l1).settled ++ (runBridge (runBridge s l1).state l2).settled,
         (runBridge s l1).minted ++ (runBridge (runBridge s l1).state l2).minted⟩ := by
  induction l1 with
  | nil => intro s; simp [runBridge]
  | cons st rest ih =>
      intro s
      simp [runBridge, ih]

/-- Trace-level invariant: over any event sequence from a good state, the
invariant is preserved, registered call ids are fresh and mutually distinct,
and the settlement ledger balances. -/
lemma runBridge_ok (steps : List BridgeStep) : ∀ s : BridgeState, StateOK s →
    StateOK (runBridge s steps).state ∧
    s.messageId ≤ (runBridge s steps).state.messageId ∧
    (∀ c ∈ (runBridge s steps).minted,
        s.messageId < c ∧ c ≤ (runBridge s steps).state.messageId) ∧
    (runBridge s steps).minted.Nodup ∧
    (∀ cid, settleCount (runBridge s steps).settled cid
        + pendCount (runBridge s steps).state.pendingRequests cid
      = pendCount s.pendingRequests cid + mintCount (runBridge s steps).minted cid) := by
  induction steps with
  | nil =>
      intro s h
      exact ⟨h, le_refl _, by simp [runBridge], by simp [runBridge],
        fun cid => by simp [runBridge, settleCount, mintCount]⟩
  | cons st rest ih =>
      intro s h
      obtain ⟨h1, h2, h3, h4, h5⟩ := stepRun_ok s st h
      obtain ⟨g1, g2, g3, g4, g5⟩ := ih (stepRun s st).state h1
      have hrun : runBridge s (st :: rest)
          = ⟨(runBridge (stepRun s st).state rest).state,
             (stepRun s st).settled ++ (runBridge (stepRun s st).state rest).settled,
             (stepRun s st).minted ++ (runBridge (stepRun s st).state rest).minted⟩ := rfl
      rw [hrun]
      dsimp only
      refine ⟨g1, le_trans h2 g2, ?_, ?_, ?_⟩
      · intro c hc
        rcases List.mem_append.mp hc with hc | hc
        · exact ⟨(h3 c hc).1, le_trans (h3 c hc).2 g2⟩
        · exact ⟨lt_of_le_of_lt h2 (g3 c hc).1, (g3 c hc).2⟩
      · rw [List.nodup_append]
        refine ⟨h4, g4, ?_⟩
        intro a ha hb
        have w1 := (h3 a ha).2
        have w2 := (g3 a hb).1
        omega
      · intro cid
        rw [settleCount_append, mintCount_append]
        have e1 := h5 cid
        have e2 := g5 cid
        omega

/-- C1: starting from a fresh bridge, along any sequence of events each call
registered by `sendCommand` settles at most once; freshly minted request ids
(counter plus timestamp) never collide with a key already in
`pendingRequests`; and if the trace is closed off by `cleanup()` every
registered call has settled exactly once and nothing remains pending. -/
theorem C1_registered_call_settles_exactly_once
    (ws : Bool) (steps : List BridgeStep) (cid : Nat) (now : Nat) :
    settleCount (runBridge (initBridge ws) steps).settled cid ≤ 1 ∧
    (∀ p ∈ (runBridge (initBridge ws) steps).state.pendingRequests,
        p.1 ≠ mkRequestId ((runBridge (initBridge ws) steps).state.messageId + 1) now) ∧
    (cid ∈ (runBridge (initBridge ws) steps).minted →
        settleCount (runBridge (initBridge ws) (steps ++ [BridgeStep.doCleanup])).settled cid
          = 1) ∧
    (runBridge (initBridge ws) (steps ++ [BridgeStep.doCleanup])).state.pendingRequests
      = [] := by
  obtain ⟨g1, g2, g3, g4, g5⟩ := runBridge_ok steps (initBridge ws) (initBridge_ok ws)
  have hbal := g5 cid
  have hpend0 : pendCount (initBridge ws).pendingRequests cid = 0 := rfl
  have hmint1 : mintCount (runBridge (initBridge ws) steps).minted cid ≤ 1 :=
    mintCount_le_one g4 cid
  have happ := runBridge_append steps [BridgeStep.doCleanup] (initBridge ws)
  have hcleansettled : (runBridge (runBridge (initBridge ws) steps).state
        [BridgeStep.doCleanup]).settled
      = (runBridge (initBridge ws) steps).state.pendingRequests.map
          (fun p => (p.2.callId, Settlement.rejectedShutdown)) := by
    simp [runBridge, stepRun, cleanup]
  have hcleanstate : (runBridge (runBridge (initBridge ws) steps).state
        [BridgeStep.doCleanup]).state.pendingRequests = [] := by
    simp [runBridge, stepRun, cleanup]
  refine ⟨?_, ?_, ?_, ?_⟩
  · omega
  · exact fresh_key_not_used g1 (Nat.lt_succ_self _) now
  · intro hmem
    have hmintpos := mintCount_pos hmem
    rw [happ]
    simp only [settleCount_append]
    rw [hcleansettled, settleCount_shutdown]
    omega
  · rw [happ]
    exact hcleanstate

/-- C1 witness: a concrete trace — client becomes ready, one command is sent
and registered as call 1 — where closing with `cleanup()` settles call 1
exactly once. -/
theorem C1_registered_call_settles_exactly_once_witness :
    1 ∈ (runBridge (initBridge true)
          [BridgeStep.clientReadyEvt, BridgeStep.send "get-component-tree" 5 false]).minted ∧
    settleCount (runBridge (initBridge true)
          ([BridgeStep.clientReadyEvt, BridgeStep.send "get-component-tree" 5 false]
            ++ [BridgeStep.doCleanup])).settled 1 = 1 :=
  ⟨by decide,
   (C1_registered_call_settles_exactly_once true
      [BridgeStep.clientReadyEvt, BridgeStep.send "get-component-tree" 5 false] 1 7).2.2.1
     (by decide)⟩

/-- Only the client-ready event can turn the ready flag on; every other
event leaves it as it was or clears it. -/
lemma stepRun_ready_provenance (s : BridgeState) (st : BridgeStep)
    (h : (stepRun s st).state.clientReady = true) :
    s.clientReady = true ∨ st = BridgeStep.clientReadyEvt := by
  cases st with
  | clientReadyEvt => exact Or.inr rfl
  | response rid res =>
      left
      cases hg : mapGet rid s.pendingRequests <;>
        simpa [stepRun, handleClientResponse, hg] using h
  | errorEvt rid err =>
      left
      cases hg : mapGet rid s.pendingRequests <;>
        simpa [stepRun, handleClientError, hg] using h
  | timerFire rid =>
      left
      cases hg : mapGet rid s.pendingRequests <;>
        simpa [stepRun, fireTimeout, hg] using h
  | doCleanup => simp [stepRun, cleanup] at h
  | send m now th =>
      left
      by_cases hws : s.wsAvailable = false
      · simpa [stepRun, sendCommand, hws] using h
      · by_cases hcr : s.clientReady = false
        · simpa [stepRun, sendCommand, hws, hcr] using h
        · simpa using hcr

/-- C3: `sendCommand` registers every pending call with a 10 000 ms deadline
timer (the fixed default duration); when the deadline timer fires on a call
that is still pending, the entry is removed from `pendingRequests` — no
leaked entry, no leaked timer — and the call rejects with a timeout error. -/
theorem C3_deadline_timer_10000_and_timeout_cleanup (s : BridgeState) (method : String)
    (now : Nat) (hws : s.wsAvailable = true) (hcr : s.clientReady = true) :
    mapGet (mkRequestId (s.messageId + 1) now)
        (sendCommand s method now false).1.pendingRequests
      = some { callId := s.messageId + 1, timeoutMs := 10000 } ∧
    (∀ (rid : String) (e : PendingEntry), mapGet rid s.pendingRequests = some e →
      fireTimeout s rid
          = ({ s with pendingRequests := mapDelete rid s.pendingRequests },
             [(e.callId, Settlement.rejectedTimeout)]) ∧
        mapGet rid (fireTimeout s rid).1.pendingRequests = none) := by
  constructor
  · simp [sendCommand, hws, hcr]
    exact mapGet_mapSet_self _ _ _
  · intro rid e hg
    constructor
    · simp [fireTimeout, hg]
    · simp [fireTimeout, hg, mapGet_mapDelete_self]

/-- C3 witness: in a concrete ready state with one pending call under key
`r9`, firing that call's timer leaves no entry behind. -/
theorem C3_deadline_timer_10000_and_timeout_cleanup_witness :
    mapGet "r9" (⟨true, true, 3, [("r9", ⟨9, 10000⟩)]⟩ : BridgeState).pendingRequests
      = some ⟨9, 10000⟩ ∧
    mapGet "r9" (fireTimeout ⟨true, true, 3, [("r9", ⟨9, 10000⟩)]⟩ "r9").1.pendingRequests
      = none :=
  ⟨by decide,
   ((C3_deadline_timer_10000_and_timeout_cleanup ⟨true, true, 3, [("r9", ⟨9, 10000⟩)]⟩
      "m" 7 rfl rfl).2 "r9" ⟨9, 10000⟩ (by decide)).2⟩

/-- C4: a `vue-mcp:response` (resp. `vue-mcp:error`) event whose request id
matches a pending call settles exactly that call with exactly that event's
result (resp. error) and removes its entry, leaving every other pending call
untouched; an event with an unknown request id is dropped and the state is
unchanged. -/
theorem C4_response_error_settle_only_matching_call (s : BridgeState)
    (rid result err : String) :
    (∀ e, mapGet rid s.pendingRequests = some e →
      handleClientResponse s rid result
          = ({ s with pendingRequests := mapDelete rid s.pendingRequests },
             [(e.callId, Settlement.resolved result)]) ∧
      handleClientError s rid err
          = ({ s with pendingRequests := mapDelete rid s.pendingRequests },
             [(e.callId, Settlement.rejectedError err)]) ∧
      mapGet rid (handleClientResponse s rid result).1.pendingRequests = none ∧
      (∀ rid2, rid2 ≠ rid →
        mapGet rid2 (handleClientResponse s rid result).1.pendingRequests
          = mapGet rid2 s.pendingRequests)) ∧
    (mapGet rid s.pendingRequests = none →
      handleClientResponse s rid result = (s, []) ∧
      handleClientError s rid err = (s, [])) := by
  constructor
  · intro e hg
    refine ⟨by simp [handleClientResponse, hg], by simp [handleClientError, hg], ?_, ?_⟩
    · simp [handleClientResponse, hg, mapGet_mapDelete_self]
    · intro rid2 h2
      simp [handleClientResponse, hg, mapGet_mapDelete_ne rid rid2 h2]
  · intro hg
    exact ⟨by simp [handleClientResponse, hg], by simp [handleClientError, hg]⟩

/-- C4 witness: two interleaved calls A (call 1, key `reqA`) and B (call 2,
key `reqB`); B's response arrives first and resolves call 2 with B's own
result, while A's entry is untouched. -/
theorem C4_response_error_settle_only_matching_call_witness :
    mapGet "reqB" [("reqA", (⟨1, 10000⟩ : PendingEntry)), ("reqB", ⟨2, 10000⟩)]
      = some ⟨2, 10000⟩ ∧
    handleClientResponse ⟨true, true, 2, [("reqA", ⟨1, 10000⟩), ("reqB", ⟨2, 10000⟩)]⟩
        "reqB" "rB"
      = (⟨true, true, 2, mapDelete "reqB" [("reqA", ⟨1, 10000⟩), ("reqB", ⟨2, 10000⟩)]⟩,
         [(2, Settlement.resolved "rB")]) ∧
    mapGet "reqA" (handleClientResponse
        ⟨true, true, 2, [("reqA", ⟨1, 10000⟩), ("reqB", ⟨2, 10000⟩)]⟩
        "reqB" "rB").1.pendingRequests
      = mapGet "reqA" [("reqA", ⟨1, 10000⟩), ("reqB", ⟨2, 10000⟩)] := by
  have h := (C4_response_error_settle_only_matching_call
      ⟨true, true, 2, [("reqA", ⟨1, 10000⟩), ("reqB", ⟨2, 10000⟩)]⟩ "reqB" "rB" "eB").1
    ⟨2, 10000⟩ (by decide)
  exact ⟨by decide, h.1, h.2.2.2 "reqA" (by decide)⟩

/-- C5: when the synchronous `viteServer.ws.send` throws, `sendCommand`
cancels the just-created timer, removes the just-registered entry, and
rejects the call immediately with the transport failure — the state carries
no entry for the minted request id. -/
theorem C5_send_throw_rejects_and_removes_entry (s : BridgeState) (method : String)
    (now : Nat) (hws : s.wsAvailable = true) (hcr : s.clientReady = true) :
    sendCommand s method now true
        = ({ s with messageId := s.messageId + 1, pendingRequests := mapDelete (mkRequestId (s.messageId + 1) now) s.pendingRequests },
           [(s.messageId + 1, Settlement.rejectedSendFail)],
           SendResult.sendFailed (s.messageId + 1)) ∧
    mapGet (mkRequestId (s.messageId + 1) now)
        (sendCommand s method now true).1.pendingRequests = none := by
  constructor
  · simp [sendCommand, hws, hcr, mapDelete_mapSet_self]
  · simp [sendCommand, hws, hcr, mapDelete_mapSet_self, mapGet_mapDelete_self]

/-- C5 witness: a ready bridge with an empty map; the throwing send leaves
the map empty and rejects call 1 in the same return. -/
theorem C5_send_throw_rejects_and_removes_entry_witness :
    sendCommand ⟨true, true, 0, []⟩ "m" 7 true
      = (⟨true, true, 1, []⟩, [(1, Settlement.rejectedSendFail)], SendResult.sendFailed 1) :=
  (C5_send_throw_rejects_and_removes_entry ⟨true, true, 0, []⟩ "m" 7 rfl rfl).1

/-- C6: a `sendCommand` issued while the transport is missing, or while the
client-ready flag (set only by the client-ready event) is false, fails
immediately with the corresponding local error and leaves the state — in
particular `pendingRequests` — completely unchanged, registering neither an
entry nor a timer. -/
theorem C6_precondition_failure_fails_fast_unchanged (s : BridgeState) (method : String)
    (now : Nat) (th : Bool) :
    (s.wsAvailable = false →
      sendCommand s method now th = (s, [], SendResult.thrownNoWs)) ∧
    (s.wsAvailable = true → s.clientReady = false →
      sendCommand s method now th = (s, [], SendResult.thrownNotReady)) ∧
    (∀ st : BridgeStep, (stepRun s st).state.clientReady = true →
      s.clientReady = true ∨ st = BridgeStep.clientReadyEvt) := by
  refine ⟨?_, ?_, ?_⟩
  · intro h; simp [sendCommand, h]
  · intro h1 h2; simp [sendCommand, h1, h2]
  · exact fun st h => stepRun_ready_provenance s st h

/-- C6 witness: with the transport missing the call throws the
no-WebSocket error; with transport but no ready signal it throws the
not-ready error; both leave the state untouched. -/
theorem C6_precondition_failure_fails_fast_unchanged_witness :
    sendCommand ⟨false, false, 0, []⟩ "m" 3 false
      = (⟨false, false, 0, []⟩, [], SendResult.thrownNoWs) ∧
    sendCommand ⟨true, false, 0, []⟩ "m" 3 false
      = (⟨true, false, 0, []⟩, [], SendResult.thrownNotReady) :=
  ⟨(C6_precondition_failure_fails_fast_unchanged ⟨false, false, 0, []⟩ "m" 3 false).1 rfl,
   (C6_precondition_failure_fails_fast_unchanged ⟨true, false, 0, []⟩ "m" 3 false).2.1 rfl rfl⟩

/-- C7: `cleanup()` rejects every pending call with the shutting-down error
(after clearing its timer), leaves `pendingRequests` empty, clears the ready
flag, and thereafter any `sendCommand` fails fast with the not-ready error
instead of registering anything. -/
theorem C7_cleanup_drains_and_disables (s : BridgeState) (method : String)
    (now : Nat) (th : Bool) :
    (cleanup s).1.pendingRequests = [] ∧
    (cleanup s).1.clientReady = false ∧
    (cleanup s).2 = s.pendingRequests.map (fun p => (p.2.callId, Settlement.rejectedShutdown)) ∧
    (∀ cid, settleCount (cleanup s).2 cid = pendCount s.pendingRequests cid) ∧
    (s.wsAvailable = true →
      sendCommand (cleanup s).1 method now th
        = ((cleanup s).1, [], SendResult.thrownNotReady)) := by
  refine ⟨rfl, rfl, rfl, ?_, ?_⟩
  · intro cid; exact settleCount_shutdown _ _
  · intro hws
    simp [sendCommand, cleanup, hws]

/-- C7 witness: cleaning up a bridge with two pending calls rejects both and
a subsequent send fails fast with the not-ready error. -/
theorem C7_cleanup_drains_and_disables_witness :
    (cleanup ⟨true, true, 2, [("r1", ⟨1, 10000⟩), ("r2", ⟨2, 10000⟩)]⟩).2
      = [(1, Settlement.rejectedShutdown), (2, Settlement.rejectedShutdown)] ∧
    sendCommand (cleanup ⟨true, true, 2, [("r1", ⟨1, 10000⟩), ("r2", ⟨2, 10000⟩)]⟩).1 "m" 9 false
      = ((cleanup ⟨true, true, 2, [("r1", ⟨1, 10000⟩), ("r2", ⟨2, 10000⟩)]⟩).1, [],
         SendResult.thrownNotReady) :=
  ⟨(C7_cleanup_drains_and_disables
      ⟨true, true, 2, [("r1", ⟨1, 10000⟩), ("r2", ⟨2, 10000⟩)]⟩ "m" 9 false).2.2.1,
   (C7_cleanup_drains_and_disables
      ⟨true, true, 2, [("r1", ⟨1, 10000⟩), ("r2", ⟨2, 10000⟩)]⟩ "m" 9 false).2.2.2.2 rfl⟩

/-- C2 counterexample: a POST with the non-empty unknown session id `stale`
against an empty registry is not rejected with a client error — the handler
takes the development-mode branch and creates a brand-new session. -/
theorem C2_unknown_session_rejected_counterexample :
    postMcpAction [] (some "stale") false = PostAction.createDevSession ∧
    createsSession (postMcpAction [] (some "stale") false) = true := by
  decide

/-- Session ids are looked up by raw property access: any id that is neither
stored nor an `Object.prototype` member name can never make the handler
reuse a stored transport. -/
lemma postMcpAction_not_stored (transports : List String) (sid : String)
    (hc : sid ∉ transports) (isInit : Bool) :
    postMcpAction transports (some sid) isInit ≠ PostAction.reuseSession := by
  by_cases hne : sid = ""
  · subst hne
    cases isInit <;> simp [postMcpAction, jsTruthy]
  · by_cases hpk : sid ∈ protoKeys
    · have hlk : registryLookup transports sid = RegistryHit.inherited := by
        simp [registryLookup, hc, hpk]
      simp [postMcpAction, jsTruthy, registryTruthy, hlk, hne]
    · have hlk : registryLookup transports sid = RegistryHit.absent := by
        simp [registryLookup, hc, hpk]
      cases isInit <;> simp [postMcpAction, jsTruthy, registryTruthy, hlk, hne]

/-- C2 (amended): a POST whose session id is non-empty but names no stored
session is never rejected with a client error: when the id is an inherited
`Object.prototype` member name, the reuse guard passes on the truthy
non-transport and the request dies with HTTP 500 from the failed dispatch;
for every other unknown id the development-mode branch creates a new
session. An unknown id never reaches a stored transport; a stored id is
reused; and the initialize branch is taken exactly for requests with no (or
empty) session id whose body is an initialize request. -/
theorem C2_unknown_session_creates_dev_session (transports : List String)
    (sessionId : Option String) (isInit : Bool) :
    (jsTruthy sessionId = true → registryTruthy transports sessionId = false →
      postMcpAction transports sessionId isInit = PostAction.createDevSession) ∧
    (∀ sid, sessionId = some sid → sid ≠ "" → sid ∉ transports → sid ∈ protoKeys →
      postMcpAction transports sessionId isInit = PostAction.reuseNonTransport) ∧
    (∀ sid, sessionId = some sid → sid ≠ "" → sid ∈ transports →
      postMcpAction transports sessionId isInit = PostAction.reuseSession) ∧
    (∀ sid, sessionId = some sid → sid ∉ transports →
      postMcpAction transports sessionId isInit ≠ PostAction.reuseSession) ∧
    (jsTruthy sessionId = false → isInit = true →
      postMcpAction transports sessionId isInit = PostAction.createInitSession) ∧
    (jsTruthy sessionId = false → isInit = false →
      postMcpAction transports sessionId isInit = PostAction.createDevSession) := by
  refine ⟨?_, ?_, ?_, ?_, ?_, ?_⟩
  · intro h1 h2
    simp [postMcpAction, h1, h2]
  · rintro sid rfl hne hnm hpk
    have hlk : registryLookup transports sid = RegistryHit.inherited := by
      simp [registryLookup, hnm, hpk]
    simp [postMcpAction, jsTruthy, registryTruthy, hlk, hne]
  · rintro sid rfl hne hm
    have hlk : registryLookup transports sid = RegistryHit.storedTransport := by
      simp [registryLookup, hm]
    simp [postMcpAction, jsTruthy, registryTruthy, hlk, hne]
  · rintro sid rfl hnm
    exact postMcpAction_not_stored transports sid hnm isInit
  · intro h1 h2
    simp [postMcpAction, h1, h2]
  · intro h1 h2
    simp [postMcpAction, h1, h2]

/-- C2 witness: with only `live` stored, the unknown id `stale` takes the
development-mode session-creating branch, while the unknown id `toString`
slips into the reuse branch as a non-transport. -/
theorem C2_unknown_session_creates_dev_session_witness :
    jsTruthy (some "stale") = true ∧
    registryTruthy ["live"] (some "stale") = false ∧
    postMcpAction ["live"] (some "stale") false = PostAction.createDevSession ∧
    ("toString" ∉ (["live"] : List String)) ∧ "toString" ∈ protoKeys ∧
    postMcpAction ["live"] (some "toString") false = PostAction.reuseNonTransport :=
  ⟨by decide, by decide,
   (C2_unknown_session_creates_dev_session ["live"] (some "stale") false).1
     (by decide) (by decide),
   by decide, by decide,
   (C2_unknown_session_creates_dev_session ["live"] (some "toString") false).2.1
     "toString" rfl (by decide) (by decide) (by decide)⟩

/-- C8 counterexample: the id `toString` names no stored transport, yet a
GET/DELETE carrying it is not answered with 400: the guard passes on the
inherited `Object.prototype.toString`, the attempted dispatch on the
non-transport throws, and the server answers HTTP 500. -/
theorem C8_unknown_session_400_counterexample :
    ("toString" ∉ ([] : List String)) ∧
    handleSessionRequest [] (some "toString") = SessionAction.internalError ∧
    SessionAction.internalError ≠ SessionAction.invalidSession := by
  decide

/-- An id without a stored transport can never make `handleSessionRequest`
dispatch to a transport. -/
lemma handleSessionRequest_not_stored (transports : List String) (sid : String)
    (hc : sid ∉ transports) (t : String) :
    handleSessionRequest transports (some sid) ≠ SessionAction.dispatchTo t := by
  by_cases hne : sid = ""
  · subst hne
    simp [handleSessionRequest, jsTruthy]
  · by_cases hpk : sid ∈ protoKeys
    · have hlk : registryLookup transports sid = RegistryHit.inherited := by
        simp [registryLookup, hc, hpk]
      simp [handleSessionRequest, jsTruthy, registryTruthy, hlk, hne]
    · have hlk : registryLookup transports sid = RegistryHit.absent := by
        simp [registryLookup, hc, hpk]
      simp [handleSessionRequest, jsTruthy, registryTruthy, hlk, hne]

/-- C8 (amended): GET/DELETE `/mcp` answers 400 for an absent or empty
session id and for every unknown id that is not an `Object.prototype` member
name; an unknown id that is such a member name slips past the guard and gets
HTTP 500 from the failed dispatch instead of 400. In every case an id
without a stored transport never reaches a transport, so a closed session id
is never served again after its transport is removed from the registry. -/
theorem C8_session_request_requires_live_session (transports : List String) (sid : String) :
    handleSessionRequest transports none = SessionAction.invalidSession ∧
    handleSessionRequest transports (some "") = SessionAction.invalidSession ∧
    (sid ∉ transports → sid ∉ protoKeys →
      handleSessionRequest transports (some sid) = SessionAction.invalidSession) ∧
    (sid ∉ transports → sid ∈ protoKeys →
      handleSessionRequest transports (some sid) = SessionAction.internalError) ∧
    (∀ t, handleSessionRequest (removeSession transports sid) (some sid)
        ≠ SessionAction.dispatchTo t) ∧
    (sid ∈ transports → sid ≠ "" →
      handleSessionRequest transports (some sid) = SessionAction.dispatchTo sid) := by
  refine ⟨?_, ?_, ?_, ?_, ?_, ?_⟩
  · simp [handleSessionRequest, jsTruthy]
  · simp [handleSessionRequest, jsTruthy]
  · intro hnm hpk
    by_cases hne : sid = ""
    · subst hne
      simp [handleSessionRequest, jsTruthy]
    · have hlk : registryLookup transports sid = RegistryHit.absent := by
        simp [registryLookup, hnm, hpk]
      simp [handleSessionRequest, jsTruthy, registryTruthy, hlk, hne]
  · intro hnm hpk
    have hne : sid ≠ "" := by
      intro he
      subst he
      exact absurd hpk (by decide)
    have hlk : registryLookup transports sid = RegistryHit.inherited := by
      simp [registryLookup, hnm, hpk]
    simp [handleSessionRequest, jsTruthy, registryTruthy, hlk, hne]
  · intro t
    have hm : sid ∉ removeSession transports sid := by
      intro hmem
      have := List.mem_filter.mp hmem
      simp at this
    exact handleSessionRequest_not_stored _ sid hm t
  · intro hm hne
    have hlk : registryLookup transports sid = RegistryHit.storedTransport := by
      simp [registryLookup, hm]
    simp [handleSessionRequest, jsTruthy, registryTruthy, hlk, hne]

/-- C8 witness: with only `s1` stored, the unknown id `zombie` gets 400, the
unknown id `toString` gets 500, `s1` itself is dispatched, and after
removing `s1` its id is no longer dispatched. -/
theorem C8_session_request_requires_live_session_witness :
    ("zombie" ∉ (["s1"] : List String)) ∧ ("zombie" ∉ protoKeys) ∧
    handleSessionRequest ["s1"] (some "zombie") = SessionAction.invalidSession ∧
    ("toString" ∉ (["s1"] : List String)) ∧ ("toString" ∈ protoKeys) ∧
    handleSessionRequest ["s1"] (some "toString") = SessionAction.internalError ∧
    handleSessionRequest (removeSession ["s1"] "s1") (some "s1")
      ≠ SessionAction.dispatchTo "s1" ∧
    handleSessionRequest ["s1"] (some "s1") = SessionAction.dispatchTo "s1" :=
  ⟨by decide, by decide,
   (C8_session_request_requires_live_session ["s1"] "zombie").2.2.1 (by decide) (by decide),
   by decide, by decide,
   (C8_session_request_requires_live_session ["s1"] "toString").2.2.2.1
     (by decide) (by decide),
   (C8_session_request_requires_live_session ["s1"] "s1").2.2.2.2.1 "s1",
   (C8_session_request_requires_live_session ["s1"] "s1").2.2.2.2.2
     (by decide) (by decide)⟩

/-- C9 counterexample: the registered tool `edit-component-state`, on a
successful devtools call returning the raw result `raw`, answers with the
fixed confirmation message in its data field, not with the raw result — the
claimed success envelope with data equal to the raw result does not hold. -/
theorem C9_success_data_counterexample :
    "edit-component-state" ∈ registeredTools ∧
    invokeTool "edit-component-state" (Except.ok "raw")
      = { success := true, data := some "State updated successfully", error := none } ∧
    (some "State updated successfully" : Option String) ≠ some "raw" := by
  decide

/-- C9 (amended): every invocation of a registered tool yields one of the
two uniform envelopes: on a devtools failure, a success-false envelope
carrying exactly the error message; on success, a success-true envelope
whose data is the raw result for the five query tools and a fixed
confirmation message for `edit-component-state` and `highlight-component`;
no invocation escapes without an envelope. -/
theorem C9_every_invocation_returns_envelope (tool : String) (res : Except String String)
    (hreg : tool ∈ registeredTools) :
    (∀ r, res = Except.ok r →
      invokeTool tool res
        = { success := true, data := some (toolSuccessData tool r), error := none }) ∧
    (∀ e, res = Except.error e →
      invokeTool tool res = { success := false, data := none, error := some e }) ∧
    (tool ≠ "edit-component-state" → tool ≠ "highlight-component" →
      ∀ r, toolSuccessData tool r = r) ∧
    ((invokeTool tool res).success = true ∧ (invokeTool tool res).error = none
      ∨ (invokeTool tool res).success = false ∧ (invokeTool tool res).data = none) := by
  refine ⟨?_, ?_, ?_, ?_⟩
  · intro r h; subst h; rfl
  · intro e h; subst h; rfl
  · intro h1 h2 r; simp [toolSuccessData, h1, h2]
  · cases res with
    | ok r => exact Or.inl ⟨rfl, rfl⟩
    | error e => exact Or.inr ⟨rfl, rfl⟩

/-- C9 witness: the query tool `get-component-tree` wraps its raw result,
and a failing call yields the error envelope. -/
theorem C9_every_invocation_returns_envelope_witness :
    "get-component-tree" ∈ registeredTools ∧
    invokeTool "get-component-tree" (Except.ok "tree")
      = { success := true, data := some (toolSuccessData "get-component-tree" "tree"),
          error := none } ∧
    invokeTool "get-component-tree" (Except.error "boom")
      = { success := false, data := none, error := some "boom" } :=
  ⟨by decide,
   (C9_every_invocation_returns_envelope "get-component-tree" (Except.ok "tree")
      (by decide)).1 "tree" rfl,
   (C9_every_invocation_returns_envelope "get-component-tree" (Except.error "boom")
      (by decide)).2.1 "boom" rfl⟩

/-- C10: the factory returns a bridge exactly for build tool `vite` with a
truthy server context; it throws the context-required error for `vite`
without a context, the not-implemented errors for `webpack` and `farm`, and
the unsupported-build-tool error for anything else — the caller never
receives null or an unusable bridge. -/
theorem C10_factory_bridge_iff_vite_with_context (buildTool : String)
    (hasServerContext : Bool) :
    ((∃ b, createDevToolsBridge buildTool hasServerContext = Except.ok b)
      ↔ (buildTool = "vite" ∧ hasServerContext = true)) ∧
    createDevToolsBridge "vite" false
      = Except.error "Vite server context is required for Vite DevTools bridge" ∧
    createDevToolsBridge "webpack" hasServerContext
      = Except.error "Webpack DevTools bridge not implemented yet" ∧
    createDevToolsBridge "farm" hasServerContext
      = Except.error "Farm DevTools bridge not implemented yet" ∧
    (buildTool ≠ "vite" → buildTool ≠ "webpack" → buildTool ≠ "farm" →
      createDevToolsBridge buildTool hasServerContext
        = Except.error ("Unsupported build tool: " ++ buildTool)) := by
  refine ⟨?_, by simp [createDevToolsBridge], ?_, ?_, ?_⟩
  · constructor
    · rintro ⟨b, hb⟩
      by_cases h1 : buildTool = "vite"
      · subst h1
        by_cases h2 : hasServerContext = true
        · exact ⟨rfl, h2⟩
        · simp [createDevToolsBridge, h2] at hb
      · by_cases h2 : buildTool = "webpack"
        · simp [createDevToolsBridge, h1, h2] at hb
        · by_cases h3 : buildTool = "farm"
          · simp [createDevToolsBridge, h1, h2, h3] at hb
          · simp [createDevToolsBridge, h1, h2, h3] at hb
    · rintro ⟨h1, h2⟩
      subst h1
      exact ⟨CreatedBridge.vite, by simp [createDevToolsBridge, h2]⟩
  · simp [createDevToolsBridge]
  · simp [createDevToolsBridge]
  · intro h1 h2 h3
    simp [createDevToolsBridge, h1, h2, h3]

/-- C10 witness: an unsupported build tool name produces the
unsupported-build-tool error. -/
theorem C10_factory_bridge_iff_vite_with_context_witness :
    createDevToolsBridge "rollup" true
      = Except.error ("Unsupported build tool: " ++ "rollup") :=
  (C10_factory_bridge_iff_vite_with_context "rollup" true).2.2.2.2
    (by decide) (by decide) (by decide)
